import Mathlib

/-
Verification of the price-estimation components of the scraplink repository.

The development shallowly embeds the two price-prediction engines found in
src/lib/pricePredictor.ts (a remote-delegate engine and a local randomized
heuristic engine), the multi-leaf aggregation loop of
src/pages/scrap/ListScrapPage.tsx, and the market-data cache described in the
specification (no cache implementation exists in the source tree, so that one
component is modelled from the specification text).

JavaScript numbers are modelled as rationals, JavaScript strings as Lean
strings manipulated through character lists, fallible code as Except, the
remote fetch as an explicit oracle argument, calls to Math.random as explicit
rational arguments, and the observable side effects of an estimator call
(remote requests, persisted records) as an explicit effect list.
-/

deriving instance DecidableEq for Except

/-- Character-level model of the JavaScript toLowerCase operation. -/
def toLowerChars (l : List Char) : List Char := l.map Char.toLower

/-- Character-level model of the JavaScript trim operation. -/
def trimChars (l : List Char) : List Char :=
  ((l.dropWhile Char.isWhitespace).reverse.dropWhile Char.isWhitespace).reverse

/-- Member of the regex word class, as in the JavaScript boundary assertion. -/
def isWordChar (c : Char) : Bool := c.isAlphanum || c = '_'

/-- Model of the JavaScript replace of the first occurrence of the pattern
matching the letter s at a word boundary by the empty string, as used by the
normalize method of the heuristic engine (pricePredictor.ts line 227). -/
def dropFirstPluralS : List Char → List Char
  | [] => []
  | [c] => if c = 's' then [] else [c]
  | c :: d :: rest =>
    if c = 's' && !(isWordChar d) then d :: rest
    else c :: dropFirstPluralS (d :: rest)

/-- Helper for list containment of a pattern at the head. -/
def charsStartWith : List Char → List Char → Bool
  | [], _ => true
  | _ :: _, [] => false
  | a :: as, b :: bs => a = b && charsStartWith as bs

/-- Helper for list containment of a pattern anywhere. -/
def charsContain (needle : List Char) : List Char → Bool
  | [] => charsStartWith needle []
  | c :: rest => charsStartWith needle (c :: rest) || charsContain needle rest

/-- Model of the JavaScript String includes method. -/
def includes (s sub : String) : Bool := charsContain sub.data s.data

/-- Helper replacing every maximal whitespace run by a single dash, the
character-level reading of the global regex replace in normalizeScrapType. -/
def collapseWsAux (prevWs : Bool) : List Char → List Char
  | [] => []
  | c :: rest =>
    if c.isWhitespace then
      (if prevWs then [] else ['-']) ++ collapseWsAux true rest
    else c :: collapseWsAux false rest

/-- Model of normalizeScrapType (pricePredictor.ts lines 19 to 25): lowercase,
trim, collapse whitespace runs to dashes, and map the ewaste variant. -/
def normalizeScrapType (t : String) : String :=
  let s := String.mk (collapseWsAux false (trimChars (toLowerChars t.data)))
  if s = "metal" ∨ s = "e-waste" ∨ s = "paper" ∨ s = "glass" then s
  else if s = "ewaste" then "e-waste"
  else s

/-- The factors block of the PricePrediction interface of pricePredictor.ts. -/
structure PriceFactors where
  basePrice : ℚ
  weightMultiplier : ℚ
  marketTrend : ℚ
  qualityAdjustment : ℚ
deriving DecidableEq

/-- The PricePrediction interface of pricePredictor.ts. -/
structure PricePrediction where
  predictedPrice : ℚ
  confidence : ℚ
  factors : PriceFactors
deriving DecidableEq

/-- Rounding a rational to two decimal places with standard half-up rounding,
as the specification describes for the final price. The source performs no
rounding; this definition exists to compare the source with that sentence. -/
def round2 (x : ℚ) : ℚ := (⌊x * 100 + 1 / 2⌋ : ℚ) / 100

namespace Remote

/-- The RFResponse payload of the remote prediction service; a missing
predicted_price field is modelled as none, matching the null check. -/
structure RFResponse where
  base_price : ℚ
  predicted_price : Option ℚ
  weight : ℚ
deriving DecidableEq

/-- Outcome of the fetch call, supplied as an oracle: either a parsed ok
response or a failure carrying the optional error field of the body. -/
inductive FetchResult
  | ok (data : RFResponse)
  | fail (errMsg : Option String)
deriving DecidableEq

/-- Observable side effects of one estimator call: the POST to the predict
endpoint with its serialized body, or a persisted estimation record. The
remote engine in the source never persists anything. -/
inductive Effect
  | remoteRequest (scrap_type : String) (sub_category : Option String)
      (sub_sub_category : Option String) (weight : ℚ)
  | persistRecord
deriving DecidableEq

/-- Error message of the three-level input guard (pricePredictor.ts line 41). -/
def invalidMsg3 : String :=
  "Invalid inputs. Provide category, sub-category, sub-sub-category and positive weight."

/-- Error message of the two-level input guard (pricePredictor.ts line 99). -/
def invalidMsg2 : String :=
  "Invalid inputs. Provide category, subcategory/leaf and positive weight."

/-- Model of PricePredictionEngine.predictPrice3 (pricePredictor.ts lines 34
to 86). The weight argument is an Option so that an absent weight can be
passed; the JavaScript guard treats an absent, zero or negative weight alike.
The returned effect list records the remote request when one is made. -/
def predictPrice3 (scrapCategory subCategory subSubCategory : String)
    (weight : Option ℚ) (fetch : FetchResult) :
    Except String PricePrediction × List Effect :=
  match weight with
  | none => (Except.error invalidMsg3, [])
  | some w =>
    if scrapCategory = "" ∨ subCategory = "" ∨ subSubCategory = "" ∨ w ≤ 0 then
      (Except.error invalidMsg3, [])
    else
      let requested : List Effect :=
        [Effect.remoteRequest (normalizeScrapType scrapCategory)
          (some subCategory) (some subSubCategory) w]
      match fetch with
      | FetchResult.fail errMsg => (Except.error (errMsg.getD "Prediction failed"), requested)
      | FetchResult.ok data =>
        let basePrice := data.base_price
        let predicted := data.predicted_price.getD (basePrice * w)
        let denom := max (basePrice * w) (1 / 1000000)
        let weightMultiplier := max (predicted / denom) (1 / 1000000)
        (Except.ok
          { predictedPrice := predicted
            confidence := 0.9
            factors :=
              { basePrice := basePrice
                weightMultiplier := weightMultiplier
                marketTrend := 1.0
                qualityAdjustment := 1.0 } }, requested)

/-- Model of the two-level PricePredictionEngine.predictPrice
(pricePredictor.ts lines 93 to 143): the second argument is sent as the
sub_category field and no sub_sub_category field is sent. -/
def predictPrice (scrapCategory subCategoryOrLeaf : String)
    (weight : Option ℚ) (fetch : FetchResult) :
    Except String PricePrediction × List Effect :=
  match weight with
  | none => (Except.error invalidMsg2, [])
  | some w =>
    if scrapCategory = "" ∨ subCategoryOrLeaf = "" ∨ w ≤ 0 then
      (Except.error invalidMsg2, [])
    else
      let requested : List Effect :=
        [Effect.remoteRequest (normalizeScrapType scrapCategory)
          (some subCategoryOrLeaf) none w]
      match fetch with
      | FetchResult.fail errMsg => (Except.error (errMsg.getD "Prediction failed"), requested)
      | FetchResult.ok data =>
        let basePrice := data.base_price
        let predicted := data.predicted_price.getD (basePrice * w)
        let denom := max (basePrice * w) (1 / 1000000)
        let weightMultiplier := max (predicted / denom) (1 / 1000000)
        (Except.ok
          { predictedPrice := predicted
            confidence := 0.9
            factors :=
              { basePrice := basePrice
                weightMultiplier := weightMultiplier
                marketTrend := 1.0
                qualityAdjustment := 1.0 } }, requested)

end Remote

namespace Heuristic

/-- The basePrices table of the heuristic engine (pricePredictor.ts lines 181
to 223); the phone entry is commented out in the source and therefore absent. -/
def basePricesList : List (String × ℚ) :=
  [("iron", 25), ("brass", 310), ("copper", 670), ("tin", 220), ("lead", 160),
   ("aluminum", 190), ("bronze", 280), ("zinc", 210), ("steel", 35), ("nickel", 430),
   ("circuit boards", 120), ("chips", 90), ("computer", 150), ("laptops", 170),
   ("tv", 130), ("refrigerator", 110), ("washing machine", 100), ("batteries", 80),
   ("charger", 60),
   ("newspaper", 18), ("magazine", 22), ("cardboard", 15), ("printed books", 10),
   ("low grade paper", 8),
   ("bottles", 5), ("broken window", 4), ("mirror", 6),
   ("mixed metal", 50), ("mixed ewaste", 80), ("mixed paper", 12), ("mixed glass", 5)]

/-- Exact-match lookup in the basePrices record. -/
def basePrices (s : String) : Option ℚ :=
  (basePricesList.find? (fun p => p.1 == s)).map (fun p => p.2)

/-- Model of the normalize method (pricePredictor.ts lines 225 to 228):
lowercase, trim, and remove the first letter s at a word boundary. -/
def normalize (ty : String) : String :=
  if ty = "" then ""
  else String.mk (dropFirstPluralS (trimChars (toLowerChars ty.data)))

/-- Metal keyword list of getFallbackType. -/
def metalKeywords : List String :=
  ["iron", "brass", "copper", "tin", "lead", "aluminum", "bronze", "zinc", "steel", "nickel"]

/-- E-waste keyword list of getFallbackType. -/
def ewasteKeywords : List String :=
  ["circuit", "chip", "computer", "laptop", "phone", "tv", "refrigerator", "washing",
   "batter", "charger"]

/-- Paper keyword list of getFallbackType. -/
def paperKeywords : List String :=
  ["paper", "book", "cardboard", "magazine", "newspaper"]

/-- Glass keyword list of getFallbackType. -/
def glassKeywords : List String :=
  ["glass", "bottle", "mirror", "window"]

/-- Model of getFallbackType (pricePredictor.ts lines 230 to 249). -/
def getFallbackType (ty : String) : String :=
  let normalized := normalize ty
  if metalKeywords.any (fun m => includes normalized m) then "mixed metal"
  else if ewasteKeywords.any (fun e => includes normalized e) then "mixed ewaste"
  else if paperKeywords.any (fun p => includes normalized p) then "mixed paper"
  else if glassKeywords.any (fun g => includes normalized g) then "mixed glass"
  else "mixed ewaste"

/-- JavaScript truthiness of an optional number: an absent value and zero are
falsy, every other number is truthy. -/
def truthy : Option ℚ → Bool
  | none => false
  | some v => decide (v ≠ 0)

/-- Base-price resolution of the heuristic predictPrice (pricePredictor.ts
lines 252 to 261): exact lookup of the normalized type, family fallback when
the lookup is falsy, and the price-unavailable error when both are falsy. -/
def resolveBasePrice (ty : String) : Except String ℚ :=
  let normalized := normalize ty
  let basePrice := basePrices normalized
  if truthy basePrice then Except.ok (basePrice.getD 0)
  else
    let fallback := getFallbackType normalized
    let fallbackPrice := basePrices fallback
    if truthy fallbackPrice then Except.ok (fallbackPrice.getD 0)
    else Except.error ("Price data not available for " ++ ty)

/-- Model of the heuristic PricePredictionEngine.predictPrice
(pricePredictor.ts lines 251 to 281). The four calls to Math.random are
modelled as the explicit arguments r1 to r4, each ranging over the half-open
unit interval; the description argument is accepted and, as in the source,
never used. -/
def predictPrice (ty : String) (weight : ℚ) (description : Option String)
    (r1 r2 r3 r4 : ℚ) : Except String PricePrediction :=
  match resolveBasePrice ty with
  | Except.error e => Except.error e
  | Except.ok basePrice =>
    let weightMultiplier := 1 + r1 * 0.2
    let marketTrend := 0.9 + r2 * 0.2
    let qualityAdjustment := 0.95 + r3 * 0.1
    let predictedPrice := basePrice * weight * weightMultiplier * marketTrend * qualityAdjustment
    let confidence := 0.85 + r4 * 0.1
    Except.ok
      { predictedPrice := predictedPrice
        confidence := confidence
        factors :=
          { basePrice := basePrice
            weightMultiplier := weightMultiplier
            marketTrend := marketTrend
            qualityAdjustment := qualityAdjustment } }

end Heuristic

namespace Aggregator

/-- The LeafSelection record of ListScrapPage.tsx (lines 133 to 139). -/
structure LeafSelection where
  category : String
  subcategory : String
  leaf : String
  weight : ℚ
  predictedPrice : Option ℚ
deriving DecidableEq

/-- Accumulator of the prediction loop of handlePredictPrice: the running
grand total, the per-category weight and price breakdown (zero for categories
not yet seen, matching the defaulted record entries), the updated leaf list,
and the list of leaves for which the estimator was actually invoked. -/
structure AggState where
  total : ℚ
  breakdownWeight : String → ℚ
  breakdownPrice : String → ℚ
  updated : List LeafSelection
  calls : List LeafSelection

/-- Initial accumulator of one handlePredictPrice run. -/
def initAgg : AggState :=
  { total := 0
    breakdownWeight := fun _ => 0
    breakdownPrice := fun _ => 0
    updated := []
    calls := [] }

/-- Model of the for loop of handlePredictPrice (ListScrapPage.tsx lines 219
to 232): leaves with nonpositive weight are pushed through unchanged without
an estimator call; a failing estimator call propagates out of the loop. -/
def aggregateLoop (estimate : LeafSelection → Except String ℚ) (st : AggState) :
    List LeafSelection → Except String AggState
  | [] => Except.ok st
  | item :: rest =>
    if 0 < item.weight then
      match estimate item with
      | Except.error e => Except.error e
      | Except.ok price =>
        aggregateLoop estimate
          { total := st.total + price
            breakdownWeight := fun c =>
              if c = item.category then st.breakdownWeight c + item.weight
              else st.breakdownWeight c
            breakdownPrice := fun c =>
              if c = item.category then st.breakdownPrice c + price
              else st.breakdownPrice c
            updated := st.updated ++ [{ item with predictedPrice := some price }]
            calls := st.calls ++ [item] } rest
    else
      aggregateLoop estimate { st with updated := st.updated ++ [item] } rest

/-- The component state touched by handlePredictPrice. -/
structure PageState where
  selectedLeaves : List LeafSelection
  predictedTotal : Option ℚ
  breakdownWeight : String → ℚ
  breakdownPrice : String → ℚ
  needsRecalc : Bool

/-- Outcome of one handlePredictPrice run: the early alert when nothing is
selected, a committed batch, or an aborted batch carrying the error the
catch block receives. -/
inductive PredictOutcome
  | noSelection
  | committed
  | aborted (err : String)
deriving DecidableEq

/-- Model of handlePredictPrice (ListScrapPage.tsx lines 207 to 244): on
success the new totals, breakdown and updated leaves are committed to the
component state; on failure the state is left untouched and the triggering
error reaches the catch block. -/
def handlePredictPrice (estimate : LeafSelection → Except String ℚ)
    (st : PageState) : PageState × PredictOutcome :=
  if st.selectedLeaves = [] then (st, PredictOutcome.noSelection)
  else
    match aggregateLoop estimate initAgg st.selectedLeaves with
    | Except.error e => (st, PredictOutcome.aborted e)
    | Except.ok agg =>
      ({ selectedLeaves := agg.updated
         predictedTotal := some agg.total
         breakdownWeight := agg.breakdownWeight
         breakdownPrice := agg.breakdownPrice
         needsRecalc := false }, PredictOutcome.committed)

end Aggregator

namespace Cache

/-- Modelled from the spec: the ReferencePrice record served by the market
data cache; no cache implementation exists under the src tree. -/
structure ReferencePrice where
  material_type : String
  current_price : ℚ
  last_updated : ℤ
  source : String
deriving DecidableEq

/-- Modelled from the spec: the cache state, a list of entries plus the
timestamp of the last full refresh, in milliseconds. -/
structure MarketDataCache where
  cache : List ReferencePrice
  lastCacheUpdate : ℤ
deriving DecidableEq

/-- Modelled from the spec: the fixed five-minute time to live. -/
def CACHE_TTL_MS : ℤ := 5 * 60 * 1000

/-- Modelled from the spec: getCurrentPrices returns the cached entries when
the cache is fresh and non-empty; otherwise it refreshes wholesale from the
data source (supplied as an oracle, none meaning a fetch failure) and updates
the timestamp; on failure it returns the empty list. The third component of
the result records whether the data source was contacted. The function is
total, so no call throws. -/
def getCurrentPrices (now : ℤ) (source : Option (List ReferencePrice))
    (st : MarketDataCache) : List ReferencePrice × MarketDataCache × Bool :=
  if now - st.lastCacheUpdate < CACHE_TTL_MS ∧ st.cache ≠ [] then
    (st.cache, st, false)
  else
    match source with
    | some prices => (prices, { cache := prices, lastCacheUpdate := now }, true)
    | none => ([], st, true)

end Cache

/-- Helper: the family fallback only ever returns one of the four mixed
buckets. -/
lemma getFallbackType_cases (s : String) :
    Heuristic.getFallbackType s = "mixed metal" ∨
    Heuristic.getFallbackType s = "mixed ewaste" ∨
    Heuristic.getFallbackType s = "mixed paper" ∨
    Heuristic.getFallbackType s = "mixed glass" := by
  simp only [Heuristic.getFallbackType]
  split_ifs <;> simp

/-- Helper: base-price resolution always succeeds, because the fallback
buckets all carry nonzero prices. -/
lemma resolveBasePrice_ok (ty : String) :
    ∃ v, Heuristic.resolveBasePrice ty = Except.ok v := by
  simp only [Heuristic.resolveBasePrice]
  by_cases h : Heuristic.truthy (Heuristic.basePrices (Heuristic.normalize ty)) = true
  · rw [if_pos h]; exact ⟨_, rfl⟩
  · rw [if_neg h]
    rcases getFallbackType_cases (Heuristic.normalize ty) with hf | hf | hf | hf <;> rw [hf]
    · rw [if_pos (show Heuristic.truthy (Heuristic.basePrices "mixed metal") = true by decide)]
      exact ⟨_, rfl⟩
    · rw [if_pos (show Heuristic.truthy (Heuristic.basePrices "mixed ewaste") = true by decide)]
      exact ⟨_, rfl⟩
    · rw [if_pos (show Heuristic.truthy (Heuristic.basePrices "mixed paper") = true by decide)]
      exact ⟨_, rfl⟩
    · rw [if_pos (show Heuristic.truthy (Heuristic.basePrices "mixed glass") = true by decide)]
      exact ⟨_, rfl⟩

/-- Claim C1: for the remote estimator operations predictPrice3 and
predictPrice, whenever the weight is absent, zero or negative, or the
material category or the leaf string is empty, the call fails with the
invalid-input error of that operation, performs no remote request and
persists no estimation record (the effect list is empty). -/
theorem predict_invalid_input_rejected
    (cat sub leaf : String) (w : Option ℚ) (f : Remote.FetchResult)
    (h : (∀ x, w = some x → x ≤ 0) ∨ cat = "" ∨ leaf = "") :
    Remote.predictPrice3 cat sub leaf w f = (Except.error Remote.invalidMsg3, []) ∧
    Remote.predictPrice cat leaf w f = (Except.error Remote.invalidMsg2, []) := by
  cases w with
  | none => exact ⟨rfl, rfl⟩
  | some x =>
    have hx : cat = "" ∨ leaf = "" ∨ x ≤ 0 := by
      rcases h with h | h | h
      · exact Or.inr (Or.inr (h x rfl))
      · exact Or.inl h
      · exact Or.inr (Or.inl h)
    constructor
    · simp only [Remote.predictPrice3]
      rw [if_pos]
      rcases hx with h | h | h
      · exact Or.inl h
      · exact Or.inr (Or.inr (Or.inl h))
      · exact Or.inr (Or.inr (Or.inr h))
    · simp only [Remote.predictPrice]
      rw [if_pos hx]

/-- Witness for claim C1 at a concrete invalid input: an empty leaf string
with a positive weight is rejected by both operations with no effects. -/
theorem predict_invalid_input_rejected_witness :
    Remote.predictPrice3 "metal" "Computing Devices" "" (some 5)
        (Remote.FetchResult.fail none) = (Except.error Remote.invalidMsg3, []) ∧
    Remote.predictPrice "metal" "" (some 5)
        (Remote.FetchResult.fail none) = (Except.error Remote.invalidMsg2, []) :=
  predict_invalid_input_rejected "metal" "Computing Devices" "" (some 5)
    (Remote.FetchResult.fail none) (Or.inr (Or.inr rfl))

/-- Claim C8: the base-price table itself lists brass at 310, laptops at 170
and circuit boards at 120, yet resolving those very names returns the generic
mixed ewaste price 80, because normalization strips the final letter s before
the exact-match lookup and the family keyword scan then fails to place the
truncated name in its family. This contradicts the claimed exact-match
resolution of every catalogued name to its own listed price. -/
theorem basePrice_plural_names_misresolve :
    Heuristic.basePrices "brass" = some 310 ∧
    Heuristic.resolveBasePrice "brass" = Except.ok 80 ∧
    Heuristic.basePrices "laptops" = some 170 ∧
    Heuristic.resolveBasePrice "laptops" = Except.ok 80 ∧
    Heuristic.basePrices "circuit boards" = some 120 ∧
    Heuristic.resolveBasePrice "circuit boards" = Except.ok 80 := by
  decide

/-- Claim C10: for every non-empty material type and positive weight the
heuristic predictPrice never fails with the price-unavailable error: the
family fallback is total and every fallback bucket carries a nonzero listed
price, so the guarded error branch is unreachable. -/
theorem heuristic_never_price_unavailable
    (ty : String) (w : ℚ) (d : Option String) (r1 r2 r3 r4 : ℚ)
    (hty : ty ≠ "") (hw : 0 < w) :
    ∃ p, Heuristic.predictPrice ty w d r1 r2 r3 r4 = Except.ok p := by
  obtain ⟨v, hv⟩ := resolveBasePrice_ok ty
  unfold Heuristic.predictPrice
  rw [hv]
  exact ⟨_, rfl⟩

/-- Witness for claim C10 at a material name matching no family keyword. -/
theorem heuristic_never_price_unavailable_witness :
    ("unobtainium" ≠ "" ∧ (0 : ℚ) < 1) ∧
    ∃ p, Heuristic.predictPrice "unobtainium" 1 none 0 0 0 0 = Except.ok p :=
  ⟨⟨by decide, by norm_num⟩,
    heuristic_never_price_unavailable "unobtainium" 1 none 0 0 0 0
      (by decide) (by norm_num)⟩

/-- Helper: exact-match resolution of copper. -/
lemma resolveBasePrice_copper : Heuristic.resolveBasePrice "copper" = Except.ok 670 := by
  decide

/-- Helper: inversion of a successful heuristic estimate into its base price
and the closed forms of all returned fields. -/
lemma heuristic_predictPrice_ok (ty : String) (w : ℚ) (d : Option String)
    (r1 r2 r3 r4 : ℚ) (p : PricePrediction)
    (h : Heuristic.predictPrice ty w d r1 r2 r3 r4 = Except.ok p) :
    ∃ bp, Heuristic.resolveBasePrice ty = Except.ok bp ∧
      p = { predictedPrice := bp * w * (1 + r1 * 0.2) * (0.9 + r2 * 0.2) * (0.95 + r3 * 0.1)
            confidence := 0.85 + r4 * 0.1
            factors :=
              { basePrice := bp
                weightMultiplier := 1 + r1 * 0.2
                marketTrend := 0.9 + r2 * 0.2
                qualityAdjustment := 0.95 + r3 * 0.1 } } := by
  unfold Heuristic.predictPrice at h
  cases hr : Heuristic.resolveBasePrice ty with
  | error e => rw [hr] at h; exact absurd h (by simp)
  | ok bp => rw [hr] at h; exact ⟨bp, rfl, (Except.ok.inj h).symm⟩

/-- Claim C2 (amended): for every successful local-heuristic estimate, the
returned predicted price equals base price times weight times market trend
times weight multiplier times quality multiplier, where the factors are
exactly those reported in the factors breakdown; the product is returned
exactly, not rounded to two decimal places. -/
theorem heuristic_price_eq_factor_product
    (ty : String) (w : ℚ) (d : Option String) (r1 r2 r3 r4 : ℚ)
    (p : PricePrediction)
    (h : Heuristic.predictPrice ty w d r1 r2 r3 r4 = Except.ok p) :
    p.predictedPrice = p.factors.basePrice * w * p.factors.marketTrend *
      p.factors.weightMultiplier * p.factors.qualityAdjustment := by
  obtain ⟨bp, -, rfl⟩ := heuristic_predictPrice_ok ty w d r1 r2 r3 r4 p h
  dsimp only
  ring

/-- The heuristic estimate for copper at weight 1 with all random draws at
zero. -/
def copperPrediction : PricePrediction :=
  { predictedPrice := 572.85
    confidence := 0.85
    factors :=
      { basePrice := 670
        weightMultiplier := 1
        marketTrend := 0.9
        qualityAdjustment := 0.95 } }

/-- Helper: the heuristic engine returns copperPrediction on that input. -/
lemma copperPrediction_eq :
    Heuristic.predictPrice "copper" 1 none 0 0 0 0 = Except.ok copperPrediction := by
  unfold Heuristic.predictPrice
  rw [resolveBasePrice_copper]
  simp only [copperPrediction, Except.ok.injEq, PricePrediction.mk.injEq,
    PriceFactors.mk.injEq]
  norm_num

/-- Witness for claim C2 at a concrete successful estimate. -/
theorem heuristic_price_eq_factor_product_witness :
    Heuristic.predictPrice "copper" 1 none 0 0 0 0 = Except.ok copperPrediction ∧
    copperPrediction.predictedPrice = copperPrediction.factors.basePrice * 1 *
      copperPrediction.factors.marketTrend * copperPrediction.factors.weightMultiplier *
      copperPrediction.factors.qualityAdjustment :=
  ⟨copperPrediction_eq,
    heuristic_price_eq_factor_product "copper" 1 none 0 0 0 0 copperPrediction
      copperPrediction_eq⟩

/-- The heuristic estimate for copper at weight 1 with random draws chosen so
that the factor product has three decimal places. -/
def roundingCex : PricePrediction :=
  { predictedPrice := 670.335
    confidence := 0.85
    factors :=
      { basePrice := 670
        weightMultiplier := 1.0005
        marketTrend := 1
        qualityAdjustment := 1 } }

/-- Counterexample to claim C2 as stated: a successful heuristic estimate
whose returned predicted price is the exact factor product 670.335, not its
two-decimal rounding 670.34; the source never rounds. -/
theorem heuristic_price_not_rounded :
    Heuristic.predictPrice "copper" 1 none (1/400) (1/2) (1/2) 0 = Except.ok roundingCex ∧
    roundingCex.predictedPrice ≠ round2 (roundingCex.factors.basePrice * 1 *
      roundingCex.factors.marketTrend * roundingCex.factors.weightMultiplier *
      roundingCex.factors.qualityAdjustment) := by
  constructor
  · unfold Heuristic.predictPrice
    rw [resolveBasePrice_copper]
    simp only [roundingCex, Except.ok.injEq, PricePrediction.mk.injEq,
      PriceFactors.mk.injEq]
    norm_num
  · simp only [roundingCex, round2]
    norm_num

/-- Counterexample to claim C3 as stated: at weight 100.01 with the first
random draw at zero, the weight multiplier is 1, not the claimed bulk
discount 0.95; the code has no weight tiers at all. -/
theorem heuristic_no_weight_tier :
    (Heuristic.predictPrice "copper" (10001/100) none 0 0 0 0).map
        (fun p => p.factors.weightMultiplier) = Except.ok 1 ∧
    (1 : ℚ) ≠ 0.95 := by
  constructor
  · unfold Heuristic.predictPrice
    rw [resolveBasePrice_copper]
    simp only [Except.map, Except.ok.injEq]
    norm_num
  · norm_num

/-- Claim C3 (amended): the weight multiplier of the heuristic engine is
1 plus 0.2 times the first random draw, so it lies in the interval from 1
inclusive to 1.2 exclusive and is independent of the weight; there are no
weight-tier thresholds, so weight 100.01 receives the same multiplier as any
other weight under the same draw. -/
theorem heuristic_weight_multiplier_uniform
    (ty : String) (wa wb : ℚ) (da db : Option String)
    (r1 ra2 ra3 ra4 rb2 rb3 rb4 : ℚ) (p q : PricePrediction)
    (h0 : 0 ≤ r1) (h1 : r1 < 1)
    (hp : Heuristic.predictPrice ty wa da r1 ra2 ra3 ra4 = Except.ok p)
    (hq : Heuristic.predictPrice ty wb db r1 rb2 rb3 rb4 = Except.ok q) :
    p.factors.weightMultiplier = 1 + r1 * 0.2 ∧
    1 ≤ p.factors.weightMultiplier ∧ p.factors.weightMultiplier < 1.2 ∧
    q.factors.weightMultiplier = p.factors.weightMultiplier := by
  obtain ⟨bp, -, rfl⟩ := heuristic_predictPrice_ok _ _ _ _ _ _ _ _ hp
  obtain ⟨bq, -, rfl⟩ := heuristic_predictPrice_ok _ _ _ _ _ _ _ _ hq
  dsimp only
  refine ⟨rfl, ?_, ?_, rfl⟩
  · nlinarith
  · nlinarith

/-- The heuristic estimate for copper at the bulk weight 100.01 with the
first random draw at one half. -/
def bulkPrediction : PricePrediction :=
  { predictedPrice := 670 * (10001/100) * (1 + (1/2) * 0.2) * (0.9 + 0 * 0.2) * (0.95 + 0 * 0.1)
    confidence := 0.85 + 0 * 0.1
    factors :=
      { basePrice := 670
        weightMultiplier := 1 + (1/2) * 0.2
        marketTrend := 0.9 + 0 * 0.2
        qualityAdjustment := 0.95 + 0 * 0.1 } }

/-- The heuristic estimate for copper at the small weight 9.99 with the first
random draw at one half. -/
def smallPrediction : PricePrediction :=
  { predictedPrice := 670 * (999/100) * (1 + (1/2) * 0.2) * (0.9 + 0 * 0.2) * (0.95 + 0 * 0.1)
    confidence := 0.85 + 0 * 0.1
    factors :=
      { basePrice := 670
        weightMultiplier := 1 + (1/2) * 0.2
        marketTrend := 0.9 + 0 * 0.2
        qualityAdjustment := 0.95 + 0 * 0.1 } }

/-- Helper: the heuristic engine returns bulkPrediction on that input. -/
lemma bulkPrediction_eq :
    Heuristic.predictPrice "copper" (10001/100) none (1/2) 0 0 0 =
      Except.ok bulkPrediction := by
  unfold Heuristic.predictPrice
  rw [resolveBasePrice_copper]
  rfl

/-- Helper: the heuristic engine returns smallPrediction on that input. -/
lemma smallPrediction_eq :
    Heuristic.predictPrice "copper" (999/100) none (1/2) 0 0 0 =
      Except.ok smallPrediction := by
  unfold Heuristic.predictPrice
  rw [resolveBasePrice_copper]
  rfl

/-- Witness for claim C3 with the draw one half shared between a bulk weight
and a small weight. -/
theorem heuristic_weight_multiplier_uniform_witness :
    ((0 : ℚ) ≤ 1/2 ∧ (1/2 : ℚ) < 1) ∧
    (bulkPrediction.factors.weightMultiplier = 1 + (1/2) * 0.2 ∧
     1 ≤ bulkPrediction.factors.weightMultiplier ∧
     bulkPrediction.factors.weightMultiplier < 1.2 ∧
     smallPrediction.factors.weightMultiplier = bulkPrediction.factors.weightMultiplier) :=
  ⟨⟨by norm_num, by norm_num⟩,
    heuristic_weight_multiplier_uniform "copper" (10001/100) (999/100) none none
      (1/2) 0 0 0 0 0 0 bulkPrediction smallPrediction (by norm_num) (by norm_num)
      bulkPrediction_eq smallPrediction_eq⟩

/-- Counterexample to claim C4 as stated: with a description containing both
clean and rusty and the third random draw at one half, the quality
adjustment is 1, not the claimed positive-quality value 1.10; the code never
reads the description. -/
theorem heuristic_quality_ignores_description :
    (Heuristic.predictPrice "copper" 1 (some "clean but rusty wire") 0 0 (1/2) 0).map
        (fun p => p.factors.qualityAdjustment) = Except.ok 1 ∧
    (1 : ℚ) ≠ 1.10 := by
  constructor
  · unfold Heuristic.predictPrice
    rw [resolveBasePrice_copper]
    simp only [Except.map, Except.ok.injEq]
    norm_num
  · norm_num

/-- Claim C4 (amended): the quality adjustment of the heuristic engine is
0.95 plus 0.1 times the third random draw, so it lies in the interval from
0.95 inclusive to 1.05 exclusive, never equals 1.10, and is independent of
the description: two estimates sharing the third draw receive the same
quality adjustment whatever their descriptions contain. -/
theorem heuristic_quality_adjustment_uniform
    (ty : String) (wa wb : ℚ) (da db : Option String)
    (ra1 ra2 r3 ra4 rb1 rb2 rb4 : ℚ) (p q : PricePrediction)
    (h0 : 0 ≤ r3) (h1 : r3 < 1)
    (hp : Heuristic.predictPrice ty wa da ra1 ra2 r3 ra4 = Except.ok p)
    (hq : Heuristic.predictPrice ty wb db rb1 rb2 r3 rb4 = Except.ok q) :
    p.factors.qualityAdjustment = 0.95 + r3 * 0.1 ∧
    0.95 ≤ p.factors.qualityAdjustment ∧ p.factors.qualityAdjustment < 1.05 ∧
    p.factors.qualityAdjustment ≠ 1.10 ∧
    q.factors.qualityAdjustment = p.factors.qualityAdjustment := by
  obtain ⟨bp, -, rfl⟩ := heuristic_predictPrice_ok _ _ _ _ _ _ _ _ hp
  obtain ⟨bq, -, rfl⟩ := heuristic_predictPrice_ok _ _ _ _ _ _ _ _ hq
  dsimp only
  have hlt : (0.95 : ℚ) + r3 * 0.1 < 1.05 := by nlinarith
  refine ⟨rfl, by nlinarith, hlt, ne_of_lt (hlt.trans_le (by norm_num)), rfl⟩

/-- The heuristic estimate for copper with a clean description and the third
random draw at one half. -/
def cleanPrediction : PricePrediction :=
  { predictedPrice := 670 * 1 * (1 + 0 * 0.2) * (0.9 + 0 * 0.2) * (0.95 + (1/2) * 0.1)
    confidence := 0.85 + 0 * 0.1
    factors :=
      { basePrice := 670
        weightMultiplier := 1 + 0 * 0.2
        marketTrend := 0.9 + 0 * 0.2
        qualityAdjustment := 0.95 + (1/2) * 0.1 } }

/-- Helper: the heuristic engine returns cleanPrediction for the clean
description. -/
lemma cleanPrediction_eq :
    Heuristic.predictPrice "copper" 1 (some "clean") 0 0 (1/2) 0 =
      Except.ok cleanPrediction := by
  unfold Heuristic.predictPrice
  rw [resolveBasePrice_copper]
  rfl

/-- Helper: the heuristic engine returns cleanPrediction for the rusty
description as well. -/
lemma rustyPrediction_eq :
    Heuristic.predictPrice "copper" 1 (some "rusty") 0 0 (1/2) 0 =
      Except.ok cleanPrediction := by
  unfold Heuristic.predictPrice
  rw [resolveBasePrice_copper]
  rfl

/-- Witness for claim C4 with the third draw one half shared between a clean
description and a rusty description. -/
theorem heuristic_quality_adjustment_uniform_witness :
    ((0 : ℚ) ≤ 1/2 ∧ (1/2 : ℚ) < 1) ∧
    (cleanPrediction.factors.qualityAdjustment = 0.95 + (1/2) * 0.1 ∧
     0.95 ≤ cleanPrediction.factors.qualityAdjustment ∧
     cleanPrediction.factors.qualityAdjustment < 1.05 ∧
     cleanPrediction.factors.qualityAdjustment ≠ 1.10 ∧
     cleanPrediction.factors.qualityAdjustment = cleanPrediction.factors.qualityAdjustment) :=
  ⟨⟨by norm_num, by norm_num⟩,
    heuristic_quality_adjustment_uniform "copper" 1 1 (some "clean") (some "rusty")
      0 0 (1/2) 0 0 0 0 cleanPrediction cleanPrediction (by norm_num) (by norm_num)
      cleanPrediction_eq rustyPrediction_eq⟩

/-- Helper: running the aggregation loop with an estimator that always
succeeds, from an arbitrary accumulator, adds exactly the positive-weight
leaves to the calls, the total, and the per-category breakdowns. -/
lemma aggregateLoop_allOk (price : Aggregator.LeafSelection → ℚ)
    (leaves : List Aggregator.LeafSelection) :
    ∀ st0 : Aggregator.AggState,
    ∃ st, Aggregator.aggregateLoop (fun l => Except.ok (price l)) st0 leaves =
        Except.ok st ∧
      st.calls = st0.calls ++ leaves.filter (fun l => decide (0 < l.weight)) ∧
      st.total = st0.total +
        ((leaves.filter (fun l => decide (0 < l.weight))).map price).sum ∧
      (∀ c, st.breakdownWeight c = st0.breakdownWeight c +
        ((leaves.filter (fun l => decide (0 < l.weight) && decide (l.category = c))).map
          (fun l => l.weight)).sum) ∧
      (∀ c, st.breakdownPrice c = st0.breakdownPrice c +
        ((leaves.filter (fun l => decide (0 < l.weight) && decide (l.category = c))).map
          price).sum) := by
  induction leaves with
  | nil =>
    intro st0
    exact ⟨st0, rfl, by simp, by simp, by simp, by simp⟩
  | cons l rest ih =>
    intro st0
    by_cases hw : 0 < l.weight
    · obtain ⟨st, hst, hcalls, htotal, hbw, hbp⟩ := ih
        { total := st0.total + price l
          breakdownWeight := fun c =>
            if c = l.category then st0.breakdownWeight c + l.weight
            else st0.breakdownWeight c
          breakdownPrice := fun c =>
            if c = l.category then st0.breakdownPrice c + price l
            else st0.breakdownPrice c
          updated := st0.updated ++ [{ l with predictedPrice := some (price l) }]
          calls := st0.calls ++ [l] }
      refine ⟨st, ?_, ?_, ?_, ?_, ?_⟩
      · simp only [Aggregator.aggregateLoop]
        rw [if_pos hw]
        exact hst
      · rw [hcalls]; simp [List.filter_cons, hw]
      · rw [htotal]
        simp [List.filter_cons, hw]
        ring
      · intro c
        rw [hbw c]
        by_cases hc : c = l.category
        · subst hc
          simp [List.filter_cons, hw]
          ring
        · have hc2 : ¬ (l.category = c) := fun hx => hc hx.symm
          simp [List.filter_cons, hw, hc, hc2]
      · intro c
        rw [hbp c]
        by_cases hc : c = l.category
        · subst hc
          simp [List.filter_cons, hw]
          ring
        · have hc2 : ¬ (l.category = c) := fun hx => hc hx.symm
          simp [List.filter_cons, hw, hc, hc2]
    · obtain ⟨st, hst, hcalls, htotal, hbw, hbp⟩ := ih { st0 with updated := st0.updated ++ [l] }
      refine ⟨st, ?_, ?_, ?_, ?_, ?_⟩
      · simp only [Aggregator.aggregateLoop]
        rw [if_neg hw]
        exact hst
      · rw [hcalls]; simp [List.filter_cons, hw]
      · rw [htotal]; simp [List.filter_cons, hw]
      · intro c; rw [hbw c]; simp [List.filter_cons, hw]
      · intro c; rw [hbp c]; simp [List.filter_cons, hw]

/-- Claim C5: with an estimator that succeeds on every leaf, the aggregation
loop silently skips the leaves with zero or unset (nonpositive) weight: the
estimator is invoked exactly on the positive-weight leaves, the grand total
is the sum of their predicted prices, each category total sums over exactly
that category's positive-weight leaves, and for a non-empty selection the
result is committed to the page state verbatim. -/
theorem aggregator_totals
    (price : Aggregator.LeafSelection → ℚ) (leaves : List Aggregator.LeafSelection) :
    ∃ st, Aggregator.aggregateLoop (fun l => Except.ok (price l)) Aggregator.initAgg leaves =
        Except.ok st ∧
      st.calls = leaves.filter (fun l => decide (0 < l.weight)) ∧
      st.total = ((leaves.filter (fun l => decide (0 < l.weight))).map price).sum ∧
      (∀ c, st.breakdownWeight c =
        ((leaves.filter (fun l => decide (0 < l.weight) && decide (l.category = c))).map
          (fun l => l.weight)).sum) ∧
      (∀ c, st.breakdownPrice c =
        ((leaves.filter (fun l => decide (0 < l.weight) && decide (l.category = c))).map
          price).sum) ∧
      (leaves = [] ∨
        Aggregator.handlePredictPrice (fun l => Except.ok (price l))
            { selectedLeaves := leaves, predictedTotal := none,
              breakdownWeight := fun _ => 0, breakdownPrice := fun _ => 0,
              needsRecalc := true } =
          ({ selectedLeaves := st.updated, predictedTotal := some st.total,
             breakdownWeight := st.breakdownWeight, breakdownPrice := st.breakdownPrice,
             needsRecalc := false }, Aggregator.PredictOutcome.committed)) := by
  obtain ⟨st, h1, h2, h3, h4, h5⟩ := aggregateLoop_allOk price leaves Aggregator.initAgg
  refine ⟨st, h1, ?_, ?_, ?_, ?_, ?_⟩
  · simpa [Aggregator.initAgg] using h2
  · simpa [Aggregator.initAgg] using h3
  · intro c; simpa [Aggregator.initAgg] using h4 c
  · intro c; simpa [Aggregator.initAgg] using h5 c
  · by_cases hne : leaves = []
    · exact Or.inl hne
    · refine Or.inr ?_
      simp only [Aggregator.handlePredictPrice]
      rw [if_neg hne, h1]

/-- Helper: a failing estimator call on a positive-weight leaf propagates out
of the aggregation loop, whatever accumulator it starts from, provided every
earlier positive-weight leaf succeeds. -/
lemma aggregateLoop_error (estimate : Aggregator.LeafSelection → Except String ℚ)
    (l : Aggregator.LeafSelection) (post : List Aggregator.LeafSelection) (e : String)
    (hl : 0 < l.weight) (he : estimate l = Except.error e) :
    ∀ (pre : List Aggregator.LeafSelection) (st0 : Aggregator.AggState),
      (∀ x ∈ pre, 0 < x.weight → ∃ v, estimate x = Except.ok v) →
      Aggregator.aggregateLoop estimate st0 (pre ++ l :: post) = Except.error e := by
  intro pre
  induction pre with
  | nil =>
    intro st0 _
    simp only [List.nil_append, Aggregator.aggregateLoop]
    rw [if_pos hl, he]
  | cons x xs ih =>
    intro st0 hpre
    by_cases hw : 0 < x.weight
    · obtain ⟨v, hv⟩ := hpre x (by simp) hw
      simp only [List.cons_append, Aggregator.aggregateLoop]
      rw [if_pos hw, hv]
      exact ih _ (fun y hy hwy => hpre y (by simp [hy]) hwy)
    · simp only [List.cons_append, Aggregator.aggregateLoop]
      rw [if_neg hw]
      exact ih _ (fun y hy hwy => hpre y (by simp [hy]) hwy)

/-- Claim C6: if the estimation of one positive-weight leaf fails while every
earlier positive-weight leaf succeeds, the whole batch aborts: the page state
is returned exactly as it was, nothing is committed, and the triggering
error is the one surfaced. -/
theorem aggregator_aborts_on_failure
    (estimate : Aggregator.LeafSelection → Except String ℚ)
    (st : Aggregator.PageState) (pre post : List Aggregator.LeafSelection)
    (l : Aggregator.LeafSelection) (e : String)
    (hsel : st.selectedLeaves = pre ++ l :: post)
    (hpre : ∀ x ∈ pre, 0 < x.weight → ∃ v, estimate x = Except.ok v)
    (hl : 0 < l.weight) (he : estimate l = Except.error e) :
    Aggregator.handlePredictPrice estimate st = (st, Aggregator.PredictOutcome.aborted e) := by
  simp only [Aggregator.handlePredictPrice]
  rw [hsel, if_neg (by simp), aggregateLoop_error estimate l post e hl he pre _ hpre]

/-- A copper leaf selection with positive weight. -/
def copperLeaf : Aggregator.LeafSelection :=
  { category := "metal", subcategory := "Non-Ferrous Metals", leaf := "Copper",
    weight := 5, predictedPrice := none }

/-- An iron leaf selection with positive weight. -/
def ironLeaf : Aggregator.LeafSelection :=
  { category := "metal", subcategory := "Ferrous Metals", leaf := "Iron",
    weight := 3, predictedPrice := none }

/-- An estimator that fails exactly on the iron leaf. -/
def failingEstimate : Aggregator.LeafSelection → Except String ℚ :=
  fun l => if l.leaf = "Iron" then Except.error "Prediction failed" else Except.ok 3350

/-- A page state selecting the copper leaf and then the iron leaf. -/
def samplePage : Aggregator.PageState :=
  { selectedLeaves := [copperLeaf, ironLeaf], predictedTotal := none,
    breakdownWeight := fun _ => 0, breakdownPrice := fun _ => 0,
    needsRecalc := true }

/-- Witness for claim C6: the iron leaf fails after the copper leaf succeeds
and the page state is returned untouched with the triggering error. -/
theorem aggregator_aborts_on_failure_witness :
    Aggregator.handlePredictPrice failingEstimate samplePage =
      (samplePage, Aggregator.PredictOutcome.aborted "Prediction failed") :=
  aggregator_aborts_on_failure failingEstimate samplePage [copperLeaf] [] ironLeaf
    "Prediction failed" rfl
    (by
      intro x hx hwx
      simp only [List.mem_singleton] at hx
      subst hx
      exact ⟨3350, by decide⟩)
    (by decide) (by decide)

/-- Helper: inversion of a successful three-level remote prediction into the
clamped form of its returned weight multiplier. -/
lemma predictPrice3_ok_weightMultiplier
    (cat sub leaf : String) (w : Option ℚ) (f : Remote.FetchResult) (p : PricePrediction)
    (h : (Remote.predictPrice3 cat sub leaf w f).1 = Except.ok p) :
    ∃ ww data, w = some ww ∧ f = Remote.FetchResult.ok data ∧
      p.factors.weightMultiplier =
        max ((data.predicted_price.getD (data.base_price * ww)) /
          max (data.base_price * ww) (1 / 1000000)) (1 / 1000000) := by
  cases w with
  | none => exact absurd h (by simp [Remote.predictPrice3])
  | some ww =>
    simp only [Remote.predictPrice3] at h
    by_cases hg : cat = "" ∨ sub = "" ∨ leaf = "" ∨ ww ≤ 0
    · rw [if_pos hg] at h
      exact absurd h (by simp)
    · rw [if_neg hg] at h
      cases f with
      | fail msg => exact absurd h (by simp)
      | ok data =>
        dsimp only at h
        injection h with h2
        subst h2
        exact ⟨ww, data, rfl, rfl, rfl⟩

/-- Helper: inversion of a successful two-level remote prediction into the
clamped form of its returned weight multiplier. -/
lemma predictPrice_ok_weightMultiplier
    (cat leaf : String) (w : Option ℚ) (f : Remote.FetchResult) (p : PricePrediction)
    (h : (Remote.predictPrice cat leaf w f).1 = Except.ok p) :
    ∃ ww data, w = some ww ∧ f = Remote.FetchResult.ok data ∧
      p.factors.weightMultiplier =
        max ((data.predicted_price.getD (data.base_price * ww)) /
          max (data.base_price * ww) (1 / 1000000)) (1 / 1000000) := by
  cases w with
  | none => exact absurd h (by simp [Remote.predictPrice])
  | some ww =>
    simp only [Remote.predictPrice] at h
    by_cases hg : cat = "" ∨ leaf = "" ∨ ww ≤ 0
    · rw [if_pos hg] at h
      exact absurd h (by simp)
    · rw [if_neg hg] at h
      cases f with
      | fail msg => exact absurd h (by simp)
      | ok data =>
        dsimp only at h
        injection h with h2
        subst h2
        exact ⟨ww, data, rfl, rfl, rfl⟩

/-- Claim C9: every successful remote-delegate prediction, through the
three-level predictPrice3 or through the two-level predictPrice, back-computes
the weight multiplier as the predicted price divided by the product of base
price and weight, with the denominator clamped below by one millionth and the
quotient clamped below by one millionth; the multiplier is therefore strictly
positive, the clamped denominator is strictly positive even when base price
times weight is zero, and whenever base price times weight is at least one
millionth the multiplier is exactly the claimed clamped quotient. -/
theorem remote_weight_multiplier_clamped
    (cat sub leaf : String) (w : Option ℚ) (f : Remote.FetchResult) (p : PricePrediction) :
    ((Remote.predictPrice3 cat sub leaf w f).1 = Except.ok p →
      0 < p.factors.weightMultiplier ∧
      ∃ ww data, w = some ww ∧ f = Remote.FetchResult.ok data ∧
        0 < max (data.base_price * ww) (1 / 1000000) ∧
        p.factors.weightMultiplier =
          max ((data.predicted_price.getD (data.base_price * ww)) /
            max (data.base_price * ww) (1 / 1000000)) (1 / 1000000) ∧
        (1 / 1000000 ≤ data.base_price * ww →
          p.factors.weightMultiplier =
            max ((data.predicted_price.getD (data.base_price * ww)) /
              (data.base_price * ww)) (1 / 1000000))) ∧
    ((Remote.predictPrice cat leaf w f).1 = Except.ok p →
      0 < p.factors.weightMultiplier ∧
      ∃ ww data, w = some ww ∧ f = Remote.FetchResult.ok data ∧
        0 < max (data.base_price * ww) (1 / 1000000) ∧
        p.factors.weightMultiplier =
          max ((data.predicted_price.getD (data.base_price * ww)) /
            max (data.base_price * ww) (1 / 1000000)) (1 / 1000000) ∧
        (1 / 1000000 ≤ data.base_price * ww →
          p.factors.weightMultiplier =
            max ((data.predicted_price.getD (data.base_price * ww)) /
              (data.base_price * ww)) (1 / 1000000))) := by
  constructor
  · intro h
    obtain ⟨ww, data, hww, hf, hwm⟩ :=
      predictPrice3_ok_weightMultiplier cat sub leaf w f p h
    refine ⟨?_, ww, data, hww, hf, ?_, hwm, ?_⟩
    · rw [hwm]
      exact lt_of_lt_of_le (by norm_num) (le_max_right _ _)
    · exact lt_of_lt_of_le (by norm_num) (le_max_right _ _)
    · intro hle
      rw [hwm, max_eq_left hle]
  · intro h
    obtain ⟨ww, data, hww, hf, hwm⟩ :=
      predictPrice_ok_weightMultiplier cat leaf w f p h
    refine ⟨?_, ww, data, hww, hf, ?_, hwm, ?_⟩
    · rw [hwm]
      exact lt_of_lt_of_le (by norm_num) (le_max_right _ _)
    · exact lt_of_lt_of_le (by norm_num) (le_max_right _ _)
    · intro hle
      rw [hwm, max_eq_left hle]

/-- A sample successful response of the remote prediction service. -/
def rfSample : Remote.RFResponse :=
  { base_price := 10, predicted_price := some 30, weight := 2 }

/-- The prediction the remote engine builds from that response at weight 2. -/
def remoteSamplePrediction : PricePrediction :=
  { predictedPrice := 30
    confidence := 0.9
    factors :=
      { basePrice := 10
        weightMultiplier := max ((30 : ℚ) / max ((10 : ℚ) * 2) (1 / 1000000)) (1 / 1000000)
        marketTrend := 1.0
        qualityAdjustment := 1.0 } }

/-- Helper: the three-level remote operation returns remoteSamplePrediction
on that input. -/
lemma remoteSamplePrediction_eq :
    (Remote.predictPrice3 "metal" "Computing Devices" "Laptop - MacBook" (some 2)
        (Remote.FetchResult.ok rfSample)).1 = Except.ok remoteSamplePrediction := by
  rfl

/-- A sample response whose base price is zero, exercising the clamped
denominator. -/
def rfSampleZero : Remote.RFResponse :=
  { base_price := 0, predicted_price := some 5, weight := 3 }

/-- The prediction the two-level remote operation builds from the zero
base-price response at weight 3. -/
def remoteZeroPrediction : PricePrediction :=
  { predictedPrice := 5
    confidence := 0.9
    factors :=
      { basePrice := 0
        weightMultiplier := max ((5 : ℚ) / max ((0 : ℚ) * 3) (1 / 1000000)) (1 / 1000000)
        marketTrend := 1.0
        qualityAdjustment := 1.0 } }

/-- Helper: the two-level remote operation returns remoteZeroPrediction on
that input. -/
lemma remoteZeroPrediction_eq :
    (Remote.predictPrice "metal" "Copper" (some 3)
        (Remote.FetchResult.ok rfSampleZero)).1 = Except.ok remoteZeroPrediction := by
  rfl

/-- Witness for claim C9: the three-level operation at the sample response
and the two-level operation at the zero base-price response, where the
product of base price and weight is zero. -/
theorem remote_weight_multiplier_clamped_witness :
    (0 < remoteSamplePrediction.factors.weightMultiplier ∧
     ∃ ww data, some (2 : ℚ) = some ww ∧
       Remote.FetchResult.ok rfSample = Remote.FetchResult.ok data ∧
       0 < max (data.base_price * ww) (1 / 1000000) ∧
       remoteSamplePrediction.factors.weightMultiplier =
         max ((data.predicted_price.getD (data.base_price * ww)) /
           max (data.base_price * ww) (1 / 1000000)) (1 / 1000000) ∧
       (1 / 1000000 ≤ data.base_price * ww →
         remoteSamplePrediction.factors.weightMultiplier =
           max ((data.predicted_price.getD (data.base_price * ww)) /
             (data.base_price * ww)) (1 / 1000000))) ∧
    (0 < remoteZeroPrediction.factors.weightMultiplier ∧
     ∃ ww data, some (3 : ℚ) = some ww ∧
       Remote.FetchResult.ok rfSampleZero = Remote.FetchResult.ok data ∧
       0 < max (data.base_price * ww) (1 / 1000000) ∧
       remoteZeroPrediction.factors.weightMultiplier =
         max ((data.predicted_price.getD (data.base_price * ww)) /
           max (data.base_price * ww) (1 / 1000000)) (1 / 1000000) ∧
       (1 / 1000000 ≤ data.base_price * ww →
         remoteZeroPrediction.factors.weightMultiplier =
           max ((data.predicted_price.getD (data.base_price * ww)) /
             (data.base_price * ww)) (1 / 1000000))) :=
  ⟨(remote_weight_multiplier_clamped "metal" "Computing Devices" "Laptop - MacBook"
      (some 2) (Remote.FetchResult.ok rfSample) remoteSamplePrediction).1
      remoteSamplePrediction_eq,
   (remote_weight_multiplier_clamped "metal" "unused" "Copper"
      (some 3) (Remote.FetchResult.ok rfSampleZero) remoteZeroPrediction).2
      remoteZeroPrediction_eq⟩

/-- Claim C7: getCurrentPrices serves the cached entries without contacting
the data source when the cache is fresh and non-empty; otherwise it replaces
the whole cache from the data source and updates the refresh timestamp, and
on a data-source failure it returns the empty list, leaves the state alone,
and, being a total function, never throws. -/
theorem cache_read_through_and_refresh
    (now : ℤ) (src : Option (List Cache.ReferencePrice)) (st : Cache.MarketDataCache) :
    (now - st.lastCacheUpdate < Cache.CACHE_TTL_MS → st.cache ≠ [] →
      Cache.getCurrentPrices now src st = (st.cache, st, false)) ∧
    (¬ (now - st.lastCacheUpdate < Cache.CACHE_TTL_MS ∧ st.cache ≠ []) →
      (∀ ps, src = some ps →
        Cache.getCurrentPrices now src st =
          (ps, { cache := ps, lastCacheUpdate := now }, true)) ∧
      (src = none → Cache.getCurrentPrices now src st = ([], st, true))) := by
  constructor
  · intro h1 h2
    unfold Cache.getCurrentPrices
    rw [if_pos ⟨h1, h2⟩]
  · intro h
    constructor
    · intro ps hps
      subst hps
      unfold Cache.getCurrentPrices
      rw [if_neg h]
    · intro hn
      subst hn
      unfold Cache.getCurrentPrices
      rw [if_neg h]

/-- A seeded copper reference price. -/
def copperRef : Cache.ReferencePrice :=
  { material_type := "copper", current_price := 670, last_updated := 0, source := "seed" }

/-- A freshly fetched iron reference price. -/
def ironRef : Cache.ReferencePrice :=
  { material_type := "iron", current_price := 25, last_updated := 0, source := "market" }

/-- Witness for claim C7: a fresh hit serves the cache without a fetch, a
stale call replaces the cache wholesale and updates the timestamp, and a
failing fetch degrades to the empty list. -/
theorem cache_read_through_and_refresh_witness :
    Cache.getCurrentPrices 1000 (some [ironRef])
        { cache := [copperRef], lastCacheUpdate := 900 } =
      ([copperRef], { cache := [copperRef], lastCacheUpdate := 900 }, false) ∧
    Cache.getCurrentPrices 400000 (some [ironRef])
        { cache := [copperRef], lastCacheUpdate := 0 } =
      ([ironRef], { cache := [ironRef], lastCacheUpdate := 400000 }, true) ∧
    Cache.getCurrentPrices 400000 none
        { cache := [copperRef], lastCacheUpdate := 0 } =
      ([], { cache := [copperRef], lastCacheUpdate := 0 }, true) :=
  ⟨(cache_read_through_and_refresh 1000 (some [ironRef])
      { cache := [copperRef], lastCacheUpdate := 900 }).1 (by decide) (by simp),
   ((cache_read_through_and_refresh 400000 (some [ironRef])
      { cache := [copperRef], lastCacheUpdate := 0 }).2 (by decide)).1 [ironRef] rfl,
   ((cache_read_through_and_refresh 400000 none
      { cache := [copperRef], lastCacheUpdate := 0 }).2 (by decide)).2 rfl⟩
